import Mathlib

/-!
Verification of the Catinci "show me" server (`show_me_server.py`).

The Python source is shallowly embedded: pure helper functions become Lean
functions on `String` / `List Char`, the process-wide `SESSIONS` dict becomes
an explicit association list threaded through the handlers, and the two
external collaborators (the Twilio delivery call and the Gemini generation
call) become function parameters returning `Except`, so that a raised
exception in a collaborator is an `Except.error` value.

Python string semantics are modelled over the ASCII range: `str.lower`,
`str.strip`, substring `in`, `str.find`, and `urllib.parse.urlencode` with
`quote_plus` are reproduced character by character.
-/

namespace ShowMe

/-! ### Python string primitives -/

/-- Model of `str.lower` on one character (ASCII range: `A`–`Z` shift by 32). -/
def lowerChar (c : Char) : Char :=
  if 65 ≤ c.toNat ∧ c.toNat ≤ 90 then Char.ofNat (c.toNat + 32) else c

def lowerList (l : List Char) : List Char := l.map lowerChar

/-- Model of `str.lower`. -/
def lowerStr (s : String) : String := String.mk (lowerList s.data)

/-- Whitespace as matched by the Python regex `\s` and stripped by `str.strip()`
(ASCII range: space, tab, newline, carriage return, vertical tab, form feed). -/
def isSpaceRe (c : Char) : Bool :=
  c == ' ' || c == '\t' || c == '\n' || c == '\r' || c == Char.ofNat 11 || c == Char.ofNat 12

/-- Drop the longest run of characters satisfying `p` from the end of a list. -/
def dropEndWhile (p : Char → Bool) (l : List Char) : List Char :=
  (l.reverse.dropWhile p).reverse

/-- Model of `str.strip()` (no argument: whitespace on both ends). -/
def pyStripList (l : List Char) : List Char :=
  dropEndWhile isSpaceRe (l.dropWhile isSpaceRe)

def pyStrip (s : String) : String := String.mk (pyStripList s.data)

/-- The character set of the `.strip(" ?.!,")` call. -/
def inPunctSet (c : Char) : Bool :=
  c == ' ' || c == '?' || c == '.' || c == '!' || c == ','

/-- Model of `str.strip(" ?.!,")`: the set is removed from BOTH ends. -/
def stripPunct (l : List Char) : List Char :=
  dropEndWhile inPunctSet (l.dropWhile inPunctSet)

def stripPunctStr (s : String) : String := String.mk (stripPunct s.data)

/-- Trailing-only variant of `strip(" ?.!,")`; used to contrast the description in the spec
 ("trailing punctuation trimmed") with the two-sided strip of the source. -/
def stripTrailingPunct (s : String) : String := String.mk (dropEndWhile inPunctSet s.data)

/-- A regex word character (`\w`), ASCII range: letters, digits, underscore. -/
def wordChar (c : Char) : Bool := c.isAlphanum || c == '_'

/-- Model of the Python substring test `needle in hay`. -/
def hasSub : List Char → List Char → Bool
  | [], needle => needle.isEmpty
  | c :: t, needle => needle.isPrefixOf (c :: t) || hasSub t needle

def hasSubStr (hay pat : String) : Bool := hasSub hay.data pat.data

/-- Model of `str.find`: index of the leftmost occurrence, `none` if absent. -/
def findSub : List Char → List Char → Option Nat
  | hay, needle =>
    if needle.isPrefixOf hay then some 0
    else
      match hay with
      | [] => none
      | _ :: t => (findSub t needle).map Nat.succ

/-! ### `urllib.parse.urlencode({"": query})[1:]`, i.e. `quote_plus` -/

/-- Characters `quote_plus` leaves unescaped. -/
def isUrlSafe (c : Char) : Bool :=
  c.isAlphanum || c == '_' || c == '.' || c == '-' || c == '~'

def hexDigits : List Char := "0123456789ABCDEF".data

def hexDigit (n : Nat) : Char := hexDigits.getD n 'X'

def hexByte (b : Nat) : List Char := ['%', hexDigit (b / 16), hexDigit (b % 16)]

/-- UTF-8 encoding of one code point, as byte values. -/
def utf8Bytes (c : Char) : List Nat :=
  let n := c.toNat
  if n < 128 then [n]
  else if n < 2048 then [192 + n / 64, 128 + n % 64]
  else if n < 65536 then [224 + n / 4096, 128 + (n / 64) % 64, 128 + n % 64]
  else [240 + n / 262144, 128 + (n / 4096) % 64, 128 + (n / 64) % 64, 128 + n % 64]

/-- `quote_plus` on one character: space becomes `+`, safe characters pass
through, everything else is percent-encoded byte by byte. -/
def quoteChar (c : Char) : List Char :=
  if c == ' ' then ['+']
  else if isUrlSafe c then [c]
  else ((utf8Bytes c).map hexByte).flatten

def quotePlusList : List Char → List Char
  | [] => []
  | c :: cs => quoteChar c ++ quotePlusList cs

/-- Model of `urlencode({"": query})[1:]` from the URL builders of the source. -/
def quotePlusStr (s : String) : String := String.mk (quotePlusList s.data)

/-! ### Keyword matcher (`SHOW_TRIGGERS`, `is_show_request`) -/

/-- The trigger phrases of `SHOW_TRIGGERS`. Every source pattern is a literal
phrase wrapped in `\b` word boundaries; the alternation
`\bsend (me|us) pictures\b` is expanded into its two phrases. -/
def SHOW_TRIGGERS : List (List Char) :=
  ["show me".data, "show us".data, "can you show".data, "let me see".data,
   "let us see".data, "send me pictures".data, "send us pictures".data,
   "what does that look like".data]

/-- A `\b` word boundary holds before the match if the preceding character
(`none` at the start of the text) is not a word character. All trigger
phrases start and end with word characters, so this is the full condition. -/
def boundary : Option Char → Bool
  | none => true
  | some c => !wordChar c

/-- A `\b` word boundary holds after the match if the following text is empty
or starts with a non-word character. -/
def afterBoundary : List Char → Bool
  | [] => true
  | c :: _ => !wordChar c

/-- Scan for an occurrence of `p` with word boundaries on both sides; `prev`
is the character just before the current position. -/
def occursBAux (p : List Char) : Option Char → List Char → Bool
  | prev, [] => boundary prev && p.isPrefixOf [] && afterBoundary []
  | prev, c :: cs =>
    (boundary prev && p.isPrefixOf (c :: cs) && afterBoundary ((c :: cs).drop p.length))
      || occursBAux p (some c) cs

/-- `re.search(r"\b<p>\b", t)` succeeds, for a literal word-delimited phrase `p`. -/
def occursBounded (p : List Char) (t : List Char) : Bool := occursBAux p none t

/-- Embedding of `is_show_request`: false on empty text, otherwise any trigger
pattern matching the lower-cased text. -/
def is_show_request (text : String) : Bool :=
  if text = "" then false
  else SHOW_TRIGGERS.any (fun p => occursBounded p (lowerStr text).data)

/-! ### Explicit topic extractor (`extract_topic_from_utterance`) -/

def takeNonNl (l : List Char) : List Char := l.takeWhile (fun c => !(c == '\n'))

/-- Continuation of `\s+(.+)` after at least one whitespace character has been
consumed: greedily extend the `\s+` run, backtracking one character into `(.+)`
when nothing matches further right (`.` matches anything but a newline). -/
def spRestAux : List Char → Option (List Char)
  | [] => none
  | c :: cs =>
    if isSpaceRe c then
      match spRestAux cs with
      | some g => some g
      | none => if c == '\n' then none else some (takeNonNl (c :: cs))
    else
      if c == '\n' then none else some (takeNonNl (c :: cs))

/-- Match `\s+(.+)` at the head of `l`, returning the `(.+)` capture group. -/
def spRest : List Char → Option (List Char)
  | [] => none
  | c :: cs => if isSpaceRe c then spRestAux cs else none

/-- Try the pattern `<pre>(me|us)\s+(.+)` at the current position. At one
position the literal of at most one alternative can match, so no backtracking
between `me` and `us` is needed. -/
def tryShowAt (pre : List Char) (l : List Char) : Option (List Char) :=
  if (pre ++ "me".data).isPrefixOf l then spRest (l.drop (pre.length + 2))
  else if (pre ++ "us".data).isPrefixOf l then spRest (l.drop (pre.length + 2))
  else none

/-- `re.search` for `<pre>(me|us)\s+(.+)`: leftmost matching position wins. -/
def searchShow (pre : List Char) : List Char → Option (List Char)
  | [] => none
  | c :: cs =>
    match tryShowAt pre (c :: cs) with
    | some g => some g
    | none => searchShow pre cs

/-- Embedding of `extract_topic_from_utterance`: lower-case and strip the
text, try `can you show (me|us)\s+(.+)` then `show (me|us)\s+(.+)`, and
return the capture group stripped of `" ?.!,"` on both ends. -/
def extract_topic_from_utterance (text : String) : Option String :=
  if text = "" then none
  else
    let t := pyStripList (lowerList text.data)
    match searchShow ("can you show ".data) t with
    | some g => some (String.mk (stripPunct g))
    | none =>
      match searchShow ("show ".data) t with
      | some g => some (String.mk (stripPunct g))
      | none => none

/-- The character context just before a spliced occurrence: the last
character of `a` when `a` is non-empty, else the ambient previous character. -/
def lastCtx : List Char → Option Char → Option Char
  | [], prev => prev
  | c :: a, _ => lastCtx a (some c)

/-! ### Link builders -/

/-- Embedding of `google_images_url`. -/
def google_images_url (query : String) : String :=
  "https://www.google.com/search?tbm=isch&q=" ++ quotePlusStr query

/-- Embedding of `youtube_url`. -/
def youtube_url (query : String) : String :=
  "https://www.youtube.com/results?search_query=" ++ quotePlusStr query

/-! ### Kid-friendly query enforcement -/

/-- Embedding of `ensure_kid_friendly_image_query`. -/
def ensure_kid_friendly_image_query (query : String) : String :=
  let q := pyStrip query
  if q = "" then "kid friendly images for kids"
  else if !hasSubStr (lowerStr q) "kid friendly" && !hasSubStr (lowerStr q) "for kids" then
    "kid friendly " ++ q
  else q

/-- Embedding of `ensure_kid_friendly_video_query`. -/
def ensure_kid_friendly_video_query (query : String) : String :=
  let q := pyStrip query
  if q = "" then "fun educational videos for kids"
  else if !hasSubStr (lowerStr q) "for kids" && !hasSubStr (lowerStr q) "kid friendly" then
    q ++ " for kids"
  else q

/-! ### Session store (`SESSIONS`) -/

/-- A `SESSIONS[user_id]` entry; `updated_at` abstracts `datetime.utcnow()`. -/
structure Session where
  current_topic : String
  image_query : String
  video_query : String
  last_question : String
  updated_at : Nat
deriving DecidableEq, Repr

abbrev Sessions := List (String × Session)

/-- `SESSIONS.get(user_id)`: the most recent binding for the key. -/
def lookupSession (m : Sessions) (k : String) : Option Session :=
  (m.find? (fun p => p.1 == k)).map (fun p => p.2)

/-- `SESSIONS[user_id] = ...`: the new binding shadows any older one. -/
def putSession (m : Sessions) (k : String) (v : Session) : Sessions :=
  (k, v) :: m

/-- The Python `a or b` for an optional/possibly-empty string: `None` and `""`
are falsy. -/
def pyOrO : Option String → String → String
  | none, d => d
  | some s, d => if s = "" then d else s

/-! ### `/show_me` handler -/

/-- The ASCII apostrophe. -/
def sq : String := String.mk [Char.ofNat 39]

/-- The response text for a non-show-request. -/
def neutralPrompt : String :=
  "If you" ++ sq ++ "d like pictures or videos, just say " ++ sq ++ "show us" ++ sq ++ "!"

/-- Topic and query resolution when no truthy explicit topic was extracted:
session values with falsy-aware fallbacks (lines 330–332 of the source). -/
def resolveFromSession (session : Option Session) : String × String × String :=
  let topic := pyOrO (session.map Session.current_topic) "what we were talking about"
  (topic,
   ensure_kid_friendly_image_query (pyOrO (session.map Session.image_query) topic),
   ensure_kid_friendly_video_query (pyOrO (session.map Session.video_query) (topic ++ " videos")))

/-- Topic, image query and video query as resolved by `show_me` (lines
323–332): a truthy extracted topic wins, otherwise the session chain. The
guard `if utter_topic:` treats an extracted empty string as falsy. -/
def resolveTQ (session : Option Session) (text : String) : String × String × String :=
  match extract_topic_from_utterance text with
  | some t =>
    if t = "" then resolveFromSession session
    else (t, ensure_kid_friendly_image_query t, ensure_kid_friendly_video_query (t ++ " videos"))
  | none => resolveFromSession session

/-- The JSON object returned by `/show_me`, plus the list of SMS deliveries
performed (destination, body) so that delivery effects are observable. -/
structure ShowMeResult where
  spoken : String
  image_url : Option String
  video_url : Option String
  sms : List (String × String)
deriving DecidableEq, Repr

/-- Embedding of the `show_me` handler. `deliver` is the Twilio collaborator
(`send_sms`); a collaborator failure is an `Except.error`, and since the
source calls `send_sms` with no `try/except`, such an error propagates and
aborts the handler. `show_me` never writes to `SESSIONS`. -/
def show_me (deliver : String → String → Except String Unit) (sessions : Sessions)
    (user_id text parent_phone : String) : Except String ShowMeResult :=
  let text := pyStrip text
  let parent_phone := pyStrip parent_phone
  if !is_show_request text then
    Except.ok { spoken := neutralPrompt, image_url := none, video_url := none, sms := [] }
  else
    let session := lookupSession sessions user_id
    let tq := resolveTQ session text
    let topic := tq.1
    let image_url := google_images_url tq.2.1
    let video_url := youtube_url tq.2.2
    let spoken :=
      "Sure! I found kid-friendly pictures and videos about " ++ topic ++
        ". I sent them to your grown-up!"
    if parent_phone = "" then
      Except.ok { spoken := spoken, image_url := some image_url, video_url := some video_url,
                  sms := [] }
    else
      let smsBody :=
        "Here are kid-friendly pictures and videos about " ++ topic ++ "!\nImages: " ++
          image_url ++ "\n\nVideos: " ++ video_url ++ "\n\n- Catinci AI 🌟"
      match deliver parent_phone smsBody with
      | Except.ok _ =>
        Except.ok { spoken := spoken, image_url := some image_url, video_url := some video_url,
                    sms := [(parent_phone, smsBody)] }
      | Except.error e => Except.error e

/-! ### `/answer` handler and LLM output parsing -/

/-- Value of one bracketed tag, matching `\[<TAG>:(.*?)\]` with `IGNORECASE`
and `DOTALL`: find the leftmost occurrence of the lower-cased tag in the
lower-cased text, then capture (from the original text) everything up to the
first `]`, stripped. If no `]` follows any occurrence the regex fails. -/
def tagValue (tag : List Char) (raw : List Char) : Option (List Char) :=
  match findSub (lowerList raw) tag with
  | none => none
  | some i =>
    let after := raw.drop (i + tag.length)
    if after.any (fun c => c == ']') then
      some (pyStripList (after.takeWhile (fun c => !(c == ']'))))
    else none

/-- Embedding of `parse_llm_output`: `(spoken, topic, image_query,
video_query)`. Tags are matched case-insensitively; the spoken part is the
stripped text before the first case-SENSITIVE occurrence of a tag literal
(the source uses `str.find` there). -/
def parse_llm_output (raw : String) : String × Option String × Option String × Option String :=
  let t := raw.data
  let topic := (tagValue "[topic:".data t).map String.mk
  let image_q := (tagValue "[image_query:".data t).map String.mk
  let video_q := (tagValue "[video_query:".data t).map String.mk
  let positions := [findSub t "[TOPIC:".data, findSub t "[IMAGE_QUERY:".data,
                    findSub t "[VIDEO_QUERY:".data]
  let first_tag := positions.foldr
    (fun o acc => match o with | some p => min p acc | none => acc) t.length
  (String.mk (pyStripList (t.take first_tag)), topic, image_q, video_q)

/-- The JSON object returned by `/answer`. The error branch of the source
returns only `spoken`, so the other fields are optional. -/
structure AnswerResult where
  spoken : String
  topic : Option String
  image_query : Option String
  video_query : Option String
deriving DecidableEq, Repr

/-- Embedding of the `answer` handler. `gemini` is the generation
collaborator (`call_gemini`); its failure is caught by the
`try/except` of the source and turned into the fallback spoken reply with no session
write. On success the handler stores the resolved topic and queries under
`user_id`; `now` abstracts `datetime.utcnow()`. -/
def answer (gemini : String → Option String → Except String String) (sessions : Sessions)
    (user_id text : String) (now : Nat) : AnswerResult × Sessions :=
  let text := pyStrip text
  let forced_topic := extract_topic_from_utterance text
  match gemini text forced_topic with
  | Except.error _ =>
    ({ spoken := "I’m having a little trouble thinking right now.",
       topic := none, image_query := none, video_query := none }, sessions)
  | Except.ok raw =>
    let p := parse_llm_output raw
    let topic := pyOrO p.2.1 (pyOrO forced_topic (text.take 50))
    let image_q := ensure_kid_friendly_image_query (pyOrO p.2.2.1 topic)
    let video_q := ensure_kid_friendly_video_query (pyOrO p.2.2.2 (topic ++ " videos"))
    ({ spoken := p.1, topic := some topic, image_query := some image_q,
       video_query := some video_q },
     putSession sessions user_id
       { current_topic := topic, image_query := image_q, video_query := video_q,
         last_question := text, updated_at := now })

/-! ### Topic sanitizer -/

/-- Splitter behind the sanitizer: whitespace-run splitting with an
accumulator (structurally recursive so that it evaluates in the kernel). -/
def splitWsAcc (acc : List Char) : List Char → List (List Char)
  | [] => if acc = [] then [] else [acc.reverse]
  | c :: cs =>
    if isSpaceRe c then
      if acc = [] then splitWsAcc [] cs else acc.reverse :: splitWsAcc [] cs
    else splitWsAcc (c :: acc) cs

/-- Join tokens with single spaces. -/
def joinSp : List (List Char) → List Char
  | [] => []
  | [t] => t
  | t :: ts => t ++ ' ' :: joinSp ts

/-- Modelled from the spec: the denylist of the Topic Sanitizer of substrings
(§4.3 gives "blood", "gore", "surgery", "corpse", "crime scene" as the fixed
list); no sanitizer is present in the source under `src/`. -/
def DENYLIST : List (List Char) :=
  ["blood".data, "gore".data, "surgery".data, "corpse".data, "crime scene".data]

/-- Modelled from the spec: a token survives when its lower-cased form
contains no denylisted substring. -/
def tokenOk (t : List Char) : Bool :=
  !(DENYLIST.any (fun d => hasSub (lowerList t) d))

/-- Modelled from the spec: `sanitize(topic)` — the Topic Sanitizer operation
is absent from `src/`; per §4.3 it splits the topic into whitespace-delimited
tokens, drops every token whose lower-cased form contains a denylisted
substring, rejoins the survivors with single spaces, and returns the fixed
fallback literal `"science facts for kids"` when nothing survives. -/
def sanitize (s : String) : String :=
  let ts := (splitWsAcc [] s.data).filter tokenOk
  if ts.isEmpty then "science facts for kids" else String.mk (joinSp ts)

set_option maxRecDepth 10000

/-- The SMS body composed by `show_me` when the topic resolved to the
generic fallback `"what we were talking about"` with no cached queries. -/
def fallbackSms : String :=
  "Here are kid-friendly pictures and videos about " ++ "what we were talking about" ++
    "!\nImages: " ++ google_images_url "kid friendly what we were talking about" ++
    "\n\nVideos: " ++ youtube_url "what we were talking about videos for kids" ++
    "\n\n- Catinci AI 🌟"

/-! ### Sanity checks: the embedding on documented concrete behaviours -/

example : is_show_request "can you show us?" = true := by decide

example : is_show_request "I like whales" = false := by decide

example : is_show_request "" = false := by decide

example : is_show_request "Show Me the stars" = true := by decide

example : is_show_request "sideshow meeting" = false := by decide

example : extract_topic_from_utterance "show me whale belly buttons!" = some "whale belly buttons" := by decide

example : extract_topic_from_utterance "Can you show us stars in Iceland?" = some "stars in iceland" := by decide

example : extract_topic_from_utterance "show us" = none := by decide

example : extract_topic_from_utterance "show me!" = none := by decide

example : extract_topic_from_utterance "I like whales" = none := by decide

example : extract_topic_from_utterance "" = none := by decide

example : quotePlusStr "whale belly buttons" = "whale+belly+buttons" := by decide

example : quotePlusStr "a&b=c" = "a%26b%3Dc" := by decide

example : ensure_kid_friendly_image_query "sharks" = "kid friendly sharks" := by decide

example : ensure_kid_friendly_video_query "sharks videos" = "sharks videos for kids" := by decide

example : ensure_kid_friendly_image_query "fun For Kids stuff" = "fun For Kids stuff" := by decide

example : sanitize "open heart surgery pictures" = "open heart pictures" := by decide

example : sanitize "surgery" = "science facts for kids" := by decide

example : sanitize "" = "science facts for kids" := by decide

example : sanitize "  whale   belly buttons " = "whale belly buttons" := by decide

set_option maxRecDepth 10000 in
example : parse_llm_output "Whales are cool!\n[TOPIC: whale belly buttons]\n[IMAGE_QUERY: whale diagram for kids]\n[VIDEO_QUERY: whale videos for kids]" =
  ("Whales are cool!", some "whale belly buttons", some "whale diagram for kids", some "whale videos for kids") := by decide

example : parse_llm_output "hello [topic: x] no caps" = ("hello [topic: x] no caps", some "x", none, none) := by decide

example : parse_llm_output "broken [TOPIC: no close" = ("broken", none, none, none) := by decide

set_option maxRecDepth 10000 in
example : show_me (fun _ _ => Except.ok ()) [] "u" "show me sharks" "+15551234567" =
  Except.ok { spoken := "Sure! I found kid-friendly pictures and videos about sharks. I sent them to your grown-up!",
              image_url := some "https://www.google.com/search?tbm=isch&q=kid+friendly+sharks",
              video_url := some "https://www.youtube.com/results?search_query=sharks+videos+for+kids",
              sms := [("+15551234567", "Here are kid-friendly pictures and videos about sharks!\nImages: https://www.google.com/search?tbm=isch&q=kid+friendly+sharks\n\nVideos: https://www.youtube.com/results?search_query=sharks+videos+for+kids\n\n- Catinci AI 🌟")] } := rfl

/-! ### Helper lemmas about substrings and lower-casing -/

theorem isPrefixOf_append_left :
    ∀ (n p r : List Char), n.isPrefixOf p = true → n.isPrefixOf (p ++ r) = true := by
  intro n
  induction n with
  | nil => intro p r _; simp [List.isPrefixOf]
  | cons c n' ih =>
    intro p r h
    cases p with
    | nil => simp [List.isPrefixOf] at h
    | cons d p' =>
      simp only [List.cons_append, List.isPrefixOf, Bool.and_eq_true] at h ⊢
      exact ⟨h.1, ih p' r h.2⟩

theorem hasSub_nil_needle : ∀ l : List Char, hasSub l [] = true := by
  intro l
  cases l with
  | nil => rfl
  | cons c t => simp [hasSub, List.isPrefixOf]

theorem hasSub_of_prefix (p r n : List Char) (h : n.isPrefixOf p = true) :
    hasSub (p ++ r) n = true := by
  cases p with
  | nil =>
    cases n with
    | nil => exact hasSub_nil_needle r
    | cons c n' => simp [List.isPrefixOf] at h
  | cons c p' =>
    have : n.isPrefixOf ((c :: p') ++ r) = true := isPrefixOf_append_left n (c :: p') r h
    simp only [List.cons_append] at this ⊢
    simp [hasSub, this]

theorem hasSub_append_right : ∀ (a b n : List Char), hasSub b n = true → hasSub (a ++ b) n = true := by
  intro a
  induction a with
  | nil => intro b n h; simpa using h
  | cons c a' ih =>
    intro b n h
    simp only [List.cons_append, hasSub, Bool.or_eq_true]
    exact Or.inr (ih b n h)

theorem data_append (s t : String) : (s ++ t).data = s.data ++ t.data := rfl

theorem lowerStr_append (s t : String) : lowerStr (s ++ t) = lowerStr s ++ lowerStr t := by
  show String.mk (lowerList (s.data ++ t.data)) = String.mk (lowerList s.data ++ lowerList t.data)
  simp [lowerList]

/-! ### Claim C1 — delivery failure aborts the `/show_me` response -/

/-- C1: the claim states that a failure raised by the delivery collaborator
(`send_sms`) does not abort the `/show_me` response. The source calls
`send_sms` with no `try/except`, so the error of the collaborator propagates out
of the handler: on a resolved show-request with a parent phone and an
always-failing delivery collaborator, the caller receives the propagated
error instead of the response object. -/
theorem show_me_delivery_failure_aborts :
    show_me (fun _ _ => Except.error "twilio unreachable") [] "u" "show me sharks"
      "+15551234567" = Except.error "twilio unreachable" := rfl

/-! ### Claim C2 — the image link carries no safe-search parameter -/

/-- C2 counterexample: for the query `"cats"` the image link is exactly the
fixed endpoint with `tbm=isch` and the encoded query — it contains no
`safe=` safe-search filtering parameter, contrary to the claim. -/
theorem google_images_url_no_safesearch :
    google_images_url "cats" = "https://www.google.com/search?tbm=isch&q=cats" ∧
      hasSubStr (google_images_url "cats") "safe=" = false := by
  exact ⟨rfl, by decide⟩

theorem hexDigit_mem_or_default (n : Nat) : hexDigit n ∈ hexDigits ∨ hexDigit n = 'X' := by
  by_cases h : n < hexDigits.length
  · exact Or.inl (by rw [hexDigit, List.getD_eq_getElem hexDigits 'X' h]; exact List.getElem_mem h)
  · exact Or.inr (by rw [hexDigit, List.getD_eq_default hexDigits 'X' (Nat.le_of_not_lt h)])

theorem quoteChar_mem (c x : Char) (hx : x ∈ quoteChar c) :
    x = '+' ∨ isUrlSafe x = true ∨ x = '%' ∨ x ∈ hexDigits ∨ x = 'X' := by
  unfold quoteChar at hx
  by_cases h1 : c == ' '
  · rw [if_pos h1] at hx
    simp at hx
    exact Or.inl hx
  · rw [if_neg h1] at hx
    by_cases h2 : isUrlSafe c = true
    · rw [if_pos h2] at hx
      simp at hx
      subst hx
      exact Or.inr (Or.inl h2)
    · rw [if_neg h2] at hx
      rw [List.mem_flatten] at hx
      obtain ⟨l, hl, hxl⟩ := hx
      rw [List.mem_map] at hl
      obtain ⟨b, _, rfl⟩ := hl
      simp only [hexByte, List.mem_cons, List.not_mem_nil, or_false] at hxl
      rcases hxl with rfl | rfl | rfl
      · exact Or.inr (Or.inr (Or.inl rfl))
      · rcases hexDigit_mem_or_default (b / 16) with h | h
        · exact Or.inr (Or.inr (Or.inr (Or.inl h)))
        · exact Or.inr (Or.inr (Or.inr (Or.inr h)))
      · rcases hexDigit_mem_or_default (b % 16) with h | h
        · exact Or.inr (Or.inr (Or.inr (Or.inl h)))
        · exact Or.inr (Or.inr (Or.inr (Or.inr h)))

theorem not_mem_quotePlusList (x : Char) (hsafe : isUrlSafe x = false)
    (hhex : x ∉ hexDigits) (hplus : x ≠ '+') (hpct : x ≠ '%') (hX : x ≠ 'X') :
    ∀ l : List Char, x ∉ quotePlusList l := by
  intro l
  induction l with
  | nil => simp [quotePlusList]
  | cons c cs ih =>
    simp only [quotePlusList, List.mem_append]
    rintro (h | h)
    · rcases quoteChar_mem c x h with rfl | h | rfl | h | rfl
      · exact hplus rfl
      · rw [hsafe] at h; exact Bool.false_ne_true h
      · exact hpct rfl
      · exact hhex h
      · exact hX rfl
    · exact ih h

/-- C2 amended: for every query string, `google_images_url` returns exactly
the fixed image-search endpoint (whose only parameters are `tbm=isch` and
`q`) followed by the percent-encoded query, and the encoded query contains
no `=` and no `&` — so no safe-search filtering parameter (or any other
parameter) is ever added. -/
theorem google_images_url_amended (q : String) :
    google_images_url q = "https://www.google.com/search?tbm=isch&q=" ++ quotePlusStr q ∧
      List.count '=' (quotePlusStr q).data = 0 ∧ List.count '&' (quotePlusStr q).data = 0 := by
  refine ⟨rfl, ?_, ?_⟩
  · exact List.count_eq_zero.mpr
      (not_mem_quotePlusList '=' (by decide) (by decide) (by decide) (by decide) (by decide) q.data)
  · exact List.count_eq_zero.mpr
      (not_mem_quotePlusList '&' (by decide) (by decide) (by decide) (by decide) (by decide) q.data)

/-! ### Claim C6 — both queries carry a kid-safety marker -/

/-- C6: for every non-empty topic, the image query and the video query each
contain `"kid friendly"` or `"for kids"` case-insensitively, including when
the topic already carries such a marker. -/
theorem queries_carry_kid_marker (q : String) (_hq : q ≠ "") :
    (hasSubStr (lowerStr (ensure_kid_friendly_image_query q)) "kid friendly" = true ∨
       hasSubStr (lowerStr (ensure_kid_friendly_image_query q)) "for kids" = true) ∧
      (hasSubStr (lowerStr (ensure_kid_friendly_video_query q)) "kid friendly" = true ∨
       hasSubStr (lowerStr (ensure_kid_friendly_video_query q)) "for kids" = true) := by
  unfold ensure_kid_friendly_image_query ensure_kid_friendly_video_query
  by_cases h0 : pyStrip q = ""
  · rw [if_pos h0, if_pos h0]
    exact ⟨Or.inl (by decide), Or.inr (by decide)⟩
  · rw [if_neg h0, if_neg h0]
    cases hk : hasSubStr (lowerStr (pyStrip q)) "kid friendly" with
    | true =>
      constructor
      · rw [if_neg (by simp [hk])]
        exact Or.inl hk
      · rw [if_neg (by simp [hk])]
        exact Or.inl hk
    | false =>
      cases hf : hasSubStr (lowerStr (pyStrip q)) "for kids" with
      | true =>
        constructor
        · rw [if_neg (by simp [hf])]
          exact Or.inr hf
        · rw [if_neg (by simp [hf])]
          exact Or.inr hf
      | false =>
        constructor
        · rw [if_pos (by simp [hk, hf])]
          refine Or.inl ?_
          rw [lowerStr_append]
          show hasSub ((lowerStr "kid friendly ").data ++ (lowerStr (pyStrip q)).data)
            "kid friendly".data = true
          exact hasSub_of_prefix _ _ _ (by decide)
        · rw [if_pos (by simp [hk, hf])]
          refine Or.inr ?_
          rw [lowerStr_append]
          show hasSub ((lowerStr (pyStrip q)).data ++ (lowerStr " for kids").data)
            "for kids".data = true
          exact hasSub_append_right _ _ _ (by decide)

/-- C6 witness: the concrete topics `"sharks"` (no marker) and
`"fun For Kids stuff"` (marker already present, mixed case) both yield
marker-carrying image and video queries. -/
theorem queries_carry_kid_marker_witness :
    (("sharks" : String) ≠ "" ∧
      (hasSubStr (lowerStr (ensure_kid_friendly_image_query "sharks")) "kid friendly" = true ∨
        hasSubStr (lowerStr (ensure_kid_friendly_image_query "sharks")) "for kids" = true)) ∧
    (("fun For Kids stuff" : String) ≠ "" ∧
      (hasSubStr (lowerStr (ensure_kid_friendly_video_query "fun For Kids stuff")) "kid friendly" = true ∨
        hasSubStr (lowerStr (ensure_kid_friendly_video_query "fun For Kids stuff")) "for kids" = true)) :=
  ⟨⟨by decide, (queries_carry_kid_marker "sharks" (by decide)).1⟩,
   ⟨by decide, (queries_carry_kid_marker "fun For Kids stuff" (by decide)).2⟩⟩

/-! ### Claim C7 — topic resolution priority -/

/-- C7: on a show-request, the resolved topic is the (truthy) topic extracted
from the utterance when there is one; otherwise the (truthy) topic stored in
the session for the identifier; otherwise the fixed fallback
`"what we were talking about"`. -/
theorem topic_resolution_priority (sessions : Sessions) (uid text : String)
    (_hshow : is_show_request text = true) :
    (∀ t, extract_topic_from_utterance text = some t → t ≠ "" →
        (resolveTQ (lookupSession sessions uid) text).1 = t) ∧
      (∀ sess, extract_topic_from_utterance text = none →
        lookupSession sessions uid = some sess → sess.current_topic ≠ "" →
        (resolveTQ (lookupSession sessions uid) text).1 = sess.current_topic) ∧
      (extract_topic_from_utterance text = none → lookupSession sessions uid = none →
        (resolveTQ (lookupSession sessions uid) text).1 = "what we were talking about") := by
  refine ⟨?_, ?_, ?_⟩
  · intro t hx hne
    simp [resolveTQ, hx, hne]
  · intro sess hx hs hne
    simp [resolveTQ, hx, hs, resolveFromSession, pyOrO, hne]
  · intro hx hs
    simp [resolveTQ, hx, hs, resolveFromSession, pyOrO]

/-- C7 witness: with a stored session topic `"volcanoes"` and the implicit
trigger `"show me!"` (no extractable topic), resolution returns the stored
topic; with `"show me sharks"` it returns the extracted `"sharks"`; with no
session and `"show me!"` it returns the generic fallback. -/
theorem topic_resolution_priority_witness :
    (resolveTQ (lookupSession [("u", ⟨"volcanoes", "iq", "vq", "q", 0⟩)] "u") "show me!").1 =
        "volcanoes" ∧
      (resolveTQ (lookupSession [] "u") "show me sharks").1 = "sharks" ∧
      (resolveTQ (lookupSession [] "u") "show me!").1 = "what we were talking about" :=
  ⟨(topic_resolution_priority [("u", ⟨"volcanoes", "iq", "vq", "q", 0⟩)] "u" "show me!"
      (by decide)).2.1 ⟨"volcanoes", "iq", "vq", "q", 0⟩ (by decide) (by decide) (by decide),
   (topic_resolution_priority [] "u" "show me sharks" (by decide)).1 "sharks"
      (by decide) (by decide),
   (topic_resolution_priority [] "u" "show me!" (by decide)).2.2 (by decide) (by decide)⟩

/-! ### Claim C9 — trigger matching is word-boundary based -/

/-- C9 counterexample: `"sideshow me"` contains the exact trigger phrase
`"show me"` as a substring, yet `is_show_request` returns false, because the
patterns of the source carry `\b` word boundaries and `w` precedes the occurrence. -/
theorem is_show_request_substring_insufficient :
    hasSubStr "sideshow me" "show me" = true ∧ is_show_request "sideshow me" = false := by
  decide

theorem isPrefixOf_self_append : ∀ (l t : List Char), l.isPrefixOf (l ++ t) = true := by
  intro l
  induction l with
  | nil => intro t; simp [List.isPrefixOf]
  | cons c l' ih => intro t; simp [List.isPrefixOf, ih]

theorem lastCtx_cons (c : Char) (a : List Char) (prev : Option Char) :
    lastCtx (c :: a) prev = lastCtx a (some c) := rfl

theorem occursBAux_extend (p : List Char) (prev : Option Char) (c : Char) (t : List Char)
    (h : occursBAux p (some c) t = true) : occursBAux p prev (c :: t) = true := by
  simp [occursBAux, h]

theorem occursBAux_here (p : List Char) (prev : Option Char) (b : List Char)
    (hprev : boundary prev = true) (hb : afterBoundary b = true) :
    occursBAux p prev (p ++ b) = true := by
  cases h : p ++ b with
  | nil =>
    rcases List.append_eq_nil.mp h with ⟨rfl, rfl⟩
    simp [occursBAux, hprev, List.isPrefixOf, afterBoundary]
  | cons c cs =>
    rw [← h]
    cases hp : p with
    | nil =>
      rw [hp] at h
      simp only [List.nil_append] at h ⊢
      rw [h]
      simp [occursBAux, hprev, List.isPrefixOf, ← h, hb]
    | cons x xs =>
      rw [← hp]
      have hcons : p ++ b = c :: cs := h
      rw [hcons]
      simp only [occursBAux, Bool.or_eq_true, Bool.and_eq_true]
      refine Or.inl ⟨⟨hprev, ?_⟩, ?_⟩
      · rw [← hcons]; exact isPrefixOf_self_append p b
      · rw [← hcons, List.drop_left]; exact hb

theorem occursBAux_complete (p b : List Char) (hb : afterBoundary b = true) :
    ∀ (a : List Char) (prev : Option Char), boundary (lastCtx a prev) = true →
      occursBAux p prev (a ++ (p ++ b)) = true := by
  intro a
  induction a with
  | nil =>
    intro prev hprev
    exact occursBAux_here p prev b hprev hb
  | cons c a' ih =>
    intro prev hprev
    rw [lastCtx_cons] at hprev
    exact occursBAux_extend p prev c (a' ++ (p ++ b)) (ih (some c) hprev)

/-- C9 amended: matching is word-boundary matching, not substring matching:
for every trigger phrase `p` and every splice `a ++ p ++ b` in which the
lower-cased left context does not end in a word character and the
lower-cased right context does not start with one, `is_show_request`
returns true. (The plain-substring version of the claim is refuted by
`"sideshow me"`.) -/
theorem is_show_request_bounded (a b : String) (p : List Char) (hp : p ∈ SHOW_TRIGGERS)
    (ha : boundary (lastCtx (lowerStr a).data none) = true)
    (hb : afterBoundary (lowerStr b).data = true) :
    is_show_request (a ++ String.mk p ++ b) = true := by
  have hall : ∀ q ∈ SHOW_TRIGGERS, lowerList q = q ∧ q ≠ [] := by decide
  have hlow : lowerList p = p := (hall p hp).1
  have hpne : p ≠ [] := (hall p hp).2
  have hdata : (a ++ String.mk p ++ b).data = a.data ++ (p ++ b.data) := by
    simp [data_append, List.append_assoc]
  have hne : (a ++ String.mk p ++ b) ≠ "" := by
    intro hcontra
    have : (a ++ String.mk p ++ b).data = [] := by rw [hcontra]
    rw [hdata] at this
    rcases List.append_eq_nil.mp this with ⟨-, h2⟩
    rcases List.append_eq_nil.mp h2 with ⟨h3, -⟩
    exact hpne h3
  rw [is_show_request, if_neg hne]
  refine List.any_eq_true.mpr ⟨p, hp, ?_⟩
  show occursBAux p none (lowerList (a ++ String.mk p ++ b).data) = true
  rw [hdata]
  show occursBAux p none (List.map lowerChar (a.data ++ (p ++ b.data))) = true
  rw [List.map_append, List.map_append]
  have hlp : List.map lowerChar p = p := hlow
  rw [hlp]
  exact occursBAux_complete p (List.map lowerChar b.data) hb (List.map lowerChar a.data) none ha

/-- C9 witness: splicing the trigger `"show me"` between `"please "` and
`" the stars"` (word boundaries on both sides) triggers the matcher. -/
theorem is_show_request_bounded_witness :
    ("show me".data ∈ SHOW_TRIGGERS) ∧
      is_show_request ("please " ++ String.mk "show me".data ++ " the stars") = true :=
  ⟨by decide,
   is_show_request_bounded "please " " the stars" "show me".data (by decide) (by decide)
     (by decide)⟩

/-! ### Membership lemmas for the extractor -/

theorem takeNonNl_subset (l : List Char) : ∀ x ∈ takeNonNl l, x ∈ l :=
  fun _ hx => (List.takeWhile_sublist _).subset hx

theorem spRestAux_subset : ∀ (l g : List Char), spRestAux l = some g → ∀ x ∈ g, x ∈ l := by
  intro l
  induction l with
  | nil => intro g h; simp [spRestAux] at h
  | cons c cs ih =>
    intro g h x hx
    simp only [spRestAux] at h
    by_cases hsp : isSpaceRe c = true
    · rw [if_pos hsp] at h
      cases hr : spRestAux cs with
      | some gr =>
        rw [hr] at h
        injection h with h
        subst h
        exact List.mem_cons_of_mem c (ih gr hr x hx)
      | none =>
        rw [hr] at h
        by_cases hnl : (c == '\n') = true
        · rw [if_pos hnl] at h; cases h
        · rw [if_neg hnl] at h
          injection h with h
          subst h
          exact takeNonNl_subset _ x hx
    · rw [if_neg hsp] at h
      by_cases hnl : (c == '\n') = true
      · rw [if_pos hnl] at h; cases h
      · rw [if_neg hnl] at h
        injection h with h
        subst h
        exact takeNonNl_subset _ x hx

theorem spRest_subset (l g : List Char) (h : spRest l = some g) : ∀ x ∈ g, x ∈ l := by
  cases l with
  | nil => simp [spRest] at h
  | cons c cs =>
    intro x hx
    simp only [spRest] at h
    by_cases hsp : isSpaceRe c = true
    · rw [if_pos hsp] at h
      exact List.mem_cons_of_mem c (spRestAux_subset cs g h x hx)
    · rw [if_neg hsp] at h; cases h

theorem tryShowAt_subset (pre l g : List Char) (h : tryShowAt pre l = some g) :
    ∀ x ∈ g, x ∈ l := by
  intro x hx
  simp only [tryShowAt] at h
  by_cases h1 : (pre ++ "me".data).isPrefixOf l = true
  · rw [if_pos h1] at h
    exact List.drop_subset _ _ (spRest_subset _ g h x hx)
  · rw [if_neg h1] at h
    by_cases h2 : (pre ++ "us".data).isPrefixOf l = true
    · rw [if_pos h2] at h
      exact List.drop_subset _ _ (spRest_subset _ g h x hx)
    · rw [if_neg h2] at h; cases h

theorem searchShow_subset : ∀ (pre l g : List Char), searchShow pre l = some g → ∀ x ∈ g, x ∈ l := by
  intro pre l
  induction l with
  | nil => intro g h; simp [searchShow] at h
  | cons c cs ih =>
    intro g h x hx
    simp only [searchShow] at h
    cases ht : tryShowAt pre (c :: cs) with
    | some gt =>
      rw [ht] at h
      injection h with h
      exact tryShowAt_subset pre (c :: cs) gt ht x (h ▸ hx)
    | none =>
      rw [ht] at h
      exact List.mem_cons_of_mem c (ih g h x hx)

theorem dropEndWhile_subset (p : Char → Bool) (l : List Char) : ∀ x ∈ dropEndWhile p l, x ∈ l := by
  intro x hx
  rw [dropEndWhile, List.mem_reverse] at hx
  exact List.mem_reverse.mp ((List.dropWhile_sublist p).subset hx)

theorem pyStripList_subset (l : List Char) : ∀ x ∈ pyStripList l, x ∈ l := by
  intro x hx
  rw [pyStripList] at hx
  exact (List.dropWhile_sublist isSpaceRe).subset (dropEndWhile_subset _ _ x hx)

theorem stripPunct_subset (l : List Char) : ∀ x ∈ stripPunct l, x ∈ l := by
  intro x hx
  rw [stripPunct] at hx
  exact (List.dropWhile_sublist inPunctSet).subset (dropEndWhile_subset _ _ x hx)

/-- Every successful extraction is the punctuation-stripped capture group of
a match found inside the lower-cased, whitespace-stripped utterance. -/
theorem extract_topic_shape (text topic : String)
    (h : extract_topic_from_utterance text = some topic) :
    ∃ g : List Char, (∀ x ∈ g, x ∈ lowerList text.data) ∧
      topic = String.mk (stripPunct g) := by
  rw [extract_topic_from_utterance] at h
  by_cases h0 : text = ""
  · rw [if_pos h0] at h; cases h
  · rw [if_neg h0] at h
    cases hs1 : searchShow ("can you show ".data) (pyStripList (lowerList text.data)) with
    | some g =>
      simp only [hs1] at h
      injection h with h
      exact ⟨g, fun x hx => pyStripList_subset _ x
        (searchShow_subset _ _ _ hs1 x hx), h.symm⟩
    | none =>
      simp only [hs1] at h
      cases hs2 : searchShow ("show ".data) (pyStripList (lowerList text.data)) with
      | some g =>
        simp only [hs2] at h
        injection h with h
        exact ⟨g, fun x hx => pyStripList_subset _ x
          (searchShow_subset _ _ _ hs2 x hx), h.symm⟩
      | none =>
        simp only [hs2] at h
        cases h

/-! ### Lower-casing is a retraction -/

theorem toNat_ofNat_of_lt (n : Nat) (h : n < 55296) : (Char.ofNat n).toNat = n := by
  have hv : n.isValidChar := Or.inl h
  rw [Char.ofNat, dif_pos hv]
  rfl

theorem lowerChar_not_upper (c : Char) :
    ¬ (65 ≤ (lowerChar c).toNat ∧ (lowerChar c).toNat ≤ 90) := by
  rw [lowerChar]
  by_cases h : 65 ≤ c.toNat ∧ c.toNat ≤ 90
  · rw [if_pos h]
    have := toNat_ofNat_of_lt (c.toNat + 32) (by omega)
    omega
  · rw [if_neg h]
    exact h

theorem lowerChar_of_not_upper (c : Char) (h : ¬ (65 ≤ c.toNat ∧ c.toNat ≤ 90)) :
    lowerChar c = c := by
  rw [lowerChar, if_neg h]

theorem lowerChar_idem (c : Char) : lowerChar (lowerChar c) = lowerChar c :=
  lowerChar_of_not_upper _ (lowerChar_not_upper c)

theorem map_id_of_mem : ∀ (l : List Char) (f : Char → Char), (∀ x ∈ l, f x = x) → l.map f = l := by
  intro l f
  induction l with
  | nil => intro _; rfl
  | cons c cs ih =>
    intro h
    simp only [List.map_cons]
    rw [h c (List.mem_cons_self c cs), ih fun x hx => h x (List.mem_cons_of_mem c hx)]

/-! ### Claim C10 — extracted topics are lower-cased -/

/-- C10: whenever `extract_topic_from_utterance` returns a topic, the topic
equals its own lower-casing: the patterns run over the lower-cased utterance
and the capture group is taken from it, so the topic echoed in the
spoken confirmation and SMS body of `/show_me` is lower-cased regardless of the spoken
casing. -/
theorem extract_topic_lowercase (text topic : String)
    (h : extract_topic_from_utterance text = some topic) : lowerStr topic = topic := by
  obtain ⟨g, hg, rfl⟩ := extract_topic_shape text topic h
  show String.mk (lowerList (stripPunct g)) = String.mk (stripPunct g)
  refine congrArg String.mk (map_id_of_mem _ _ ?_)
  intro x hx
  have hmem : x ∈ lowerList text.data := hg x (stripPunct_subset g x hx)
  rw [lowerList] at hmem
  obtain ⟨y, -, rfl⟩ := List.mem_map.mp hmem
  exact lowerChar_idem y

/-- C10 witness: `"Show Me CATS"` extracts to `"cats"`, which is its own
lower-casing. -/
theorem extract_topic_lowercase_witness :
    extract_topic_from_utterance "Show Me CATS" = some "cats" ∧ lowerStr "cats" = "cats" :=
  ⟨by decide, extract_topic_lowercase "Show Me CATS" "cats" (by decide)⟩

/-! ### Claim C8 — extraction strips punctuation from both ends -/

/-- C8 counterexample: on `"show me ...cats"` the capture group is
`"...cats"`; trimming only trailing punctuation would leave `"...cats"`
unchanged, but the `.strip(" ?.!,")` also removes the leading dots
and returns `"cats"`. -/
theorem extract_topic_strips_leading :
    extract_topic_from_utterance "show me ...cats" = some "cats" ∧
      stripTrailingPunct "...cats" = "...cats" ∧ ("cats" : String) ≠ "...cats" := by
  refine ⟨by decide, by decide, by decide⟩

theorem dropWhile_head_false (p : Char → Bool) :
    ∀ (l : List Char) (c : Char) (cs : List Char), l.dropWhile p = c :: cs → p c = false := by
  intro l
  induction l with
  | nil => intro c cs h; cases h
  | cons d t ih =>
    intro c cs h
    rw [List.dropWhile_cons] at h
    by_cases hd : p d = true
    · rw [if_pos hd] at h
      exact ih c cs h
    · rw [if_neg hd] at h
      injection h with h1 _
      subst h1
      exact Bool.eq_false_iff.mpr hd

theorem dropWhile_eq_self_of_head (p : Char → Bool) (l : List Char)
    (h : ∀ c cs, l = c :: cs → p c = false) : l.dropWhile p = l := by
  cases l with
  | nil => rfl
  | cons c cs =>
    rw [List.dropWhile_cons, h c cs rfl]
    simp

theorem dropWhile_idem (p : Char → Bool) (l : List Char) :
    (l.dropWhile p).dropWhile p = l.dropWhile p := by
  cases hd : l.dropWhile p with
  | nil => rfl
  | cons c cs =>
    refine dropWhile_eq_self_of_head p _ ?_
    intro cx csx hx
    injection hx with h1 _
    subst h1
    exact dropWhile_head_false p l c cs hd

theorem dropEndWhile_idem (p : Char → Bool) (l : List Char) :
    dropEndWhile p (dropEndWhile p l) = dropEndWhile p l := by
  rw [dropEndWhile, dropEndWhile, List.reverse_reverse, dropWhile_idem]

theorem dropEndWhile_prefix_list (p : Char → Bool) (l : List Char) : dropEndWhile p l <+: l := by
  rw [dropEndWhile]
  have h := List.reverse_prefix.mpr (List.dropWhile_suffix p (l := l.reverse))
  rwa [List.reverse_reverse] at h

theorem stripPunct_idem (l : List Char) : stripPunct (stripPunct l) = stripPunct l := by
  rw [stripPunct, stripPunct]
  have hmid : (dropEndWhile inPunctSet (l.dropWhile inPunctSet)).dropWhile inPunctSet
      = dropEndWhile inPunctSet (l.dropWhile inPunctSet) := by
    refine dropWhile_eq_self_of_head _ _ ?_
    intro c cs h
    obtain ⟨t, ht⟩ := dropEndWhile_prefix_list inPunctSet (l.dropWhile inPunctSet)
    rw [h] at ht
    refine dropWhile_head_false inPunctSet l c (cs ++ t) ?_
    rw [← ht]
    simp
  rw [hmid, dropEndWhile_idem]

/-- C8 amended: on a match, the extractor returns the capture group with the
characters of `" ?.!,"` trimmed from BOTH ends (leading as well as trailing
— the source uses two-sided `str.strip`); so every returned topic is a fixed
point of the two-sided strip. The two patterns behave as claimed otherwise:
priority of `can you show (me|us)` over `show (me|us)`, trailing trim, and
`none` on non-matching or empty input. -/
theorem extract_topic_amended :
    (∀ text topic : String, extract_topic_from_utterance text = some topic →
        stripPunctStr topic = topic) ∧
      extract_topic_from_utterance "show me whale belly buttons!" = some "whale belly buttons" ∧
      extract_topic_from_utterance "can you show me cats." = some "cats" ∧
      extract_topic_from_utterance "show us dogs!" = some "dogs" ∧
      extract_topic_from_utterance "show us can you show me cats" = some "cats" ∧
      extract_topic_from_utterance "I like whales" = none ∧
      extract_topic_from_utterance "" = none := by
  refine ⟨?_, by decide, by decide, by decide, by decide, by decide, by decide⟩
  intro text topic h
  obtain ⟨g, -, rfl⟩ := extract_topic_shape text topic h
  show String.mk (stripPunct (stripPunct g)) = String.mk (stripPunct g)
  exact congrArg String.mk (stripPunct_idem g)

/-- C8 witness: the general clause applied at `"show me cats?"`, whose
extraction `"cats"` is indeed strip-fixed. -/
theorem extract_topic_amended_witness : stripPunctStr "cats" = "cats" :=
  extract_topic_amended.1 "show me cats?" "cats" (by decide)

/-! ### Claim C3 — sanitizer idempotence (spec-modelled) -/

theorem sanitize_eq (s : String) : sanitize s =
    if ((splitWsAcc [] s.data).filter tokenOk).isEmpty then "science facts for kids"
    else String.mk (joinSp ((splitWsAcc [] s.data).filter tokenOk)) := rfl

theorem splitWsAcc_tokens : ∀ (l acc : List Char), (∀ x ∈ acc, isSpaceRe x = false) →
    ∀ t ∈ splitWsAcc acc l, t ≠ [] ∧ ∀ c ∈ t, isSpaceRe c = false := by
  intro l
  induction l with
  | nil =>
    intro acc hacc t ht
    simp only [splitWsAcc] at ht
    by_cases ha : acc = []
    · rw [if_pos ha] at ht; cases ht
    · rw [if_neg ha] at ht
      simp only [List.mem_singleton] at ht
      subst ht
      refine ⟨by simpa using ha, ?_⟩
      intro c hc
      exact hacc c (List.mem_reverse.mp hc)
  | cons c cs ih =>
    intro acc hacc t ht
    simp only [splitWsAcc] at ht
    by_cases hsp : isSpaceRe c = true
    · rw [if_pos hsp] at ht
      by_cases ha : acc = []
      · rw [if_pos ha] at ht
        exact ih [] (by simp) t ht
      · rw [if_neg ha] at ht
        rcases List.mem_cons.mp ht with rfl | htr
        · refine ⟨by simpa using ha, ?_⟩
          intro x hx
          exact hacc x (List.mem_reverse.mp hx)
        · exact ih [] (by simp) t htr
    · rw [if_neg hsp] at ht
      refine ih (c :: acc) ?_ t ht
      intro x hx
      rcases List.mem_cons.mp hx with rfl | hxr
      · exact Bool.eq_false_iff.mpr hsp
      · exact hacc x hxr

theorem splitWsAcc_consume : ∀ (t acc x : List Char), (∀ c ∈ t, isSpaceRe c = false) →
    splitWsAcc acc (t ++ x) = splitWsAcc (t.reverse ++ acc) x := by
  intro t
  induction t with
  | nil => intro acc x _; simp
  | cons c tr ih =>
    intro acc x h
    have hc : isSpaceRe c = false := h c (List.mem_cons_self c tr)
    simp only [List.cons_append, splitWsAcc]
    rw [if_neg (by simp [hc])]
    simp only [List.append_eq]
    rw [ih (c :: acc) x fun d hd => h d (List.mem_cons_of_mem c hd)]
    simp [List.append_assoc]

theorem splitWsAcc_flush (acc : List Char) (ha : acc ≠ []) (x : List Char) :
    splitWsAcc acc (' ' :: x) = acc.reverse :: splitWsAcc [] x := by
  simp only [splitWsAcc]
  rw [if_pos (by decide), if_neg ha]

theorem splitWsAcc_nil_acc (acc : List Char) (ha : acc ≠ []) :
    splitWsAcc acc [] = [acc.reverse] := by
  simp only [splitWsAcc]
  rw [if_neg ha]

theorem splitWs_joinSp : ∀ ts : List (List Char),
    (∀ t ∈ ts, t ≠ [] ∧ ∀ c ∈ t, isSpaceRe c = false) →
    splitWsAcc [] (joinSp ts) = ts := by
  intro ts
  induction ts with
  | nil => intro _; rfl
  | cons t ts' ih =>
    intro h
    obtain ⟨htne, htns⟩ := h t (List.mem_cons_self t ts')
    cases ts' with
    | nil =>
      show splitWsAcc [] (joinSp [t]) = [t]
      have hc := splitWsAcc_consume t [] [] htns
      rw [List.append_nil] at hc
      show splitWsAcc [] t = [t]
      rw [hc, List.append_nil, splitWsAcc_nil_acc _ (by simpa using htne),
        List.reverse_reverse]
    | cons t2 ts'' =>
      show splitWsAcc [] (t ++ ' ' :: joinSp (t2 :: ts'')) = t :: t2 :: ts''
      rw [splitWsAcc_consume t [] _ htns, List.append_nil,
        splitWsAcc_flush _ (by simpa using htne), List.reverse_reverse,
        ih fun u hu => h u (List.mem_cons_of_mem t hu)]

theorem sanitize_main (s : String) :
    sanitize (sanitize s) = sanitize s ∧
      ∀ t ∈ splitWsAcc [] (sanitize s).data, tokenOk t = true := by
  cases hts : (splitWsAcc [] s.data).filter tokenOk with
  | nil =>
    have h1 : sanitize s = "science facts for kids" := by
      rw [sanitize_eq, hts]
      rfl
    rw [h1]
    constructor
    · decide
    · intro t ht
      have hsplit : splitWsAcc [] ("science facts for kids" : String).data =
          ["science".data, "facts".data, "for".data, "kids".data] := by decide
      rw [hsplit] at ht
      simp only [List.mem_cons, List.not_mem_nil, or_false] at ht
      rcases ht with rfl | rfl | rfl | rfl <;> decide
  | cons t0 ts0 =>
    have hsub : ∀ t ∈ t0 :: ts0, t ≠ [] ∧ ∀ c ∈ t, isSpaceRe c = false := by
      intro t ht
      have hmem : t ∈ (splitWsAcc [] s.data).filter tokenOk := hts ▸ ht
      exact splitWsAcc_tokens s.data [] (by simp) t (List.mem_of_mem_filter hmem)
    have hok : ∀ t ∈ t0 :: ts0, tokenOk t = true := by
      intro t ht
      have hmem : t ∈ (splitWsAcc [] s.data).filter tokenOk := hts ▸ ht
      exact List.of_mem_filter hmem
    have h1 : sanitize s = String.mk (joinSp (t0 :: ts0)) := by
      rw [sanitize_eq, hts]
      rfl
    have hsplit : splitWsAcc [] (String.mk (joinSp (t0 :: ts0))).data = t0 :: ts0 :=
      splitWs_joinSp _ hsub
    constructor
    · rw [h1, sanitize_eq, hsplit, List.filter_eq_self.mpr hok]
      rfl
    · intro t ht
      rw [h1, hsplit] at ht
      exact hok t ht

/-- C3 (spec-modelled): the Topic Sanitizer is idempotent —
`sanitize (sanitize x) = sanitize x` for every string — because no
denylisted token survives one pass (every whitespace token of the output
passes the denylist check), and the empty input (all tokens dropped) yields
exactly the fixed fallback literal `"science facts for kids"`. -/
theorem sanitize_idempotent_spec :
    (∀ s : String, sanitize (sanitize s) = sanitize s) ∧
      (∀ (s : String) (t : List Char), t ∈ splitWsAcc [] (sanitize s).data →
        tokenOk t = true) ∧
      sanitize "" = "science facts for kids" :=
  ⟨fun s => (sanitize_main s).1, fun s t ht => (sanitize_main s).2 t ht, by decide⟩

/-- C3 witness: a second pass over `sanitize "open heart surgery pictures"`
is a no-op, and the surviving token `"open"` passes the denylist check. -/
theorem sanitize_idempotent_spec_witness :
    sanitize (sanitize "open heart surgery pictures") = sanitize "open heart surgery pictures" ∧
      tokenOk "open".data = true :=
  ⟨sanitize_idempotent_spec.1 "open heart surgery pictures",
   sanitize_idempotent_spec.2.1 "open heart surgery pictures" "open".data (by decide)⟩

/-! ### Claim C4 — what a non-show-request writes, and where -/

/-- C4 counterexample: for the non-show-request utterance
`"Why do whales have belly buttons?"`, the session write (done by `/answer`,
not `/show_me`) stores the LLM-reported topic `"whale belly buttons"` as the
current topic — not the utterance verbatim, contrary to the claim. -/
theorem answer_stores_llm_topic_not_verbatim :
    is_show_request "Why do whales have belly buttons?" = false ∧
      (lookupSession (answer
          (fun _ _ => Except.ok
            "Whales! [TOPIC: whale belly buttons] [IMAGE_QUERY: whale diagram for kids] [VIDEO_QUERY: whale videos for kids]")
          [] "u" "Why do whales have belly buttons?" 0).2 "u").map Session.current_topic =
        some "whale belly buttons" ∧
      ("whale belly buttons" : String) ≠ "Why do whales have belly buttons?" :=
  ⟨by decide, rfl, by decide⟩

/-- C4 amended: a non-show-request gets the neutral prompt with no links
from `/show_me`, which never writes to the session store at all; the
utterance-driven write happens in `/answer` (on every successful call),
which leaves all other identifiers unchanged and stores the utterance
verbatim only in `last_question`, while `current_topic` is the LLM-reported
topic, else the extracted topic, else the first 50 characters of the
utterance (each step skipping empty values). -/
theorem non_show_request_session_amended :
    (∀ (deliver : String → String → Except String Unit) (sessions : Sessions)
        (uid text phone : String), is_show_request (pyStrip text) = false →
        show_me deliver sessions uid text phone =
          Except.ok { spoken := neutralPrompt, image_url := none, video_url := none,
                      sms := [] }) ∧
      (∀ (gemini : String → Option String → Except String String) (sessions : Sessions)
        (uid text : String) (now : Nat) (uidB : String), uidB ≠ uid →
        lookupSession (answer gemini sessions uid text now).2 uidB =
          lookupSession sessions uidB) ∧
      (∀ (gemini : String → Option String → Except String String) (sessions : Sessions)
        (uid text : String) (now : Nat) (raw : String),
        gemini (pyStrip text) (extract_topic_from_utterance (pyStrip text)) = Except.ok raw →
        ∃ sess, lookupSession (answer gemini sessions uid text now).2 uid = some sess ∧
          sess.last_question = pyStrip text ∧
          sess.current_topic = pyOrO (parse_llm_output raw).2.1
            (pyOrO (extract_topic_from_utterance (pyStrip text)) ((pyStrip text).take 50))) := by
  refine ⟨?_, ?_, ?_⟩
  · intro deliver sessions uid text phone h
    simp [show_me, h]
  · intro gemini sessions uid text now uidB hne
    cases hg : gemini (pyStrip text) (extract_topic_from_utterance (pyStrip text)) with
    | error e => simp [answer, hg]
    | ok raw =>
      simp only [answer, hg, putSession, lookupSession]
      rw [List.find?_cons_of_neg]
      simp only [beq_iff_eq]
      exact Ne.symm hne
  · intro gemini sessions uid text now raw hg
    simp only [answer, hg, putSession, lookupSession]
    rw [List.find?_cons_of_pos]
    · exact ⟨_, rfl, rfl, rfl⟩
    · simp

/-- C4 witness: the non-show-request `"hello there"` yields the neutral
prompt with no links from `/show_me`. -/
theorem non_show_request_session_amended_witness :
    show_me (fun _ _ => Except.ok ()) [] "u" "hello there" "" =
      Except.ok { spoken := neutralPrompt, image_url := none, video_url := none, sms := [] } :=
  non_show_request_session_amended.1 (fun _ _ => Except.ok ()) [] "u" "hello there" ""
    (by decide)

/-! ### Claim C5 — implicit show-request with no session -/

/-- C5 counterexample: with no stored session, the implicit-only trigger
`"show us"` does NOT short-circuit to a clarifying prompt: the topic falls
back to `"what we were talking about"`, both links are produced, and the
delivery collaborator is called once. -/
theorem show_us_fresh_generates_links :
    (show_me (fun _ _ => Except.ok ()) [] "u" "show us" "+15551234567").map
        (fun r => (r.spoken, r.image_url.isSome, r.video_url.isSome, r.sms.length)) =
      Except.ok
        ("Sure! I found kid-friendly pictures and videos about what we were talking about. I sent them to your grown-up!",
          true, true, 1) := rfl

/-- C5 amended: on a show-request with no extractable topic, no stored
session and a parent phone, resolution cannot fail: the fixed fallback
topic is used, both links are generated from it, and the delivery
collaborator is invoked with the composed SMS; the handler result is the
delivery result mapped onto the confirmation response (no clarifying
prompt, which is reserved for non-show-requests). -/
theorem implicit_show_fallback_amended
    (deliver : String → String → Except String Unit) (sessions : Sessions)
    (uid text phone : String)
    (h1 : is_show_request (pyStrip text) = true)
    (h2 : extract_topic_from_utterance (pyStrip text) = none)
    (h3 : lookupSession sessions uid = none)
    (h4 : ¬ pyStrip phone = "") :
    show_me deliver sessions uid text phone =
      (deliver (pyStrip phone) fallbackSms).map (fun _ =>
        { spoken := "Sure! I found kid-friendly pictures and videos about what we were talking about. I sent them to your grown-up!",
          image_url := some (google_images_url "kid friendly what we were talking about"),
          video_url := some (youtube_url "what we were talking about videos for kids"),
          sms := [(pyStrip phone, fallbackSms)] }) := by
  have e1 : resolveTQ (lookupSession sessions uid) (pyStrip text) =
      ("what we were talking about", "kid friendly what we were talking about",
        "what we were talking about videos for kids") := by
    rw [h3]
    simp only [resolveTQ, h2]
    decide
  simp only [show_me, h1, Bool.not_true, Bool.false_eq_true, if_false, e1, if_neg h4]
  rw [show fallbackSms =
      "Here are kid-friendly pictures and videos about " ++ "what we were talking about" ++
        "!\nImages: " ++ google_images_url "kid friendly what we were talking about" ++
        "\n\nVideos: " ++ youtube_url "what we were talking about videos for kids" ++
        "\n\n- Catinci AI 🌟" from rfl]
  generalize ("Here are kid-friendly pictures and videos about " ++ "what we were talking about" ++
      "!\nImages: " ++ google_images_url "kid friendly what we were talking about" ++
      "\n\nVideos: " ++ youtube_url "what we were talking about videos for kids" ++
      "\n\n- Catinci AI 🌟" : String) = S
  cases deliver (pyStrip phone) S with
  | ok u => rfl
  | error e => rfl

/-- C5 witness: the scenario of the claim — fresh identifier, `"show us"`,
delivery succeeding — produces the fallback-topic response with both links
and one SMS. -/
theorem implicit_show_fallback_amended_witness :
    show_me (fun _ _ => Except.ok ()) [] "u" "show us" "+15551234567" =
      Except.ok
        { spoken := "Sure! I found kid-friendly pictures and videos about what we were talking about. I sent them to your grown-up!",
          image_url := some (google_images_url "kid friendly what we were talking about"),
          video_url := some (youtube_url "what we were talking about videos for kids"),
          sms := [("+15551234567", fallbackSms)] } := by
  have h := implicit_show_fallback_amended (fun _ _ => Except.ok ()) [] "u" "show us"
    "+15551234567" (by decide) (by decide) (by decide) (by decide)
  exact h.trans rfl

end ShowMe
